import Mathlib

/-!
Shallow embedding of src/watermark/pf/pf.py (the PF watermarking algorithm):
configuration, context seeding, per-token scoring, score aggregation,
threshold computation and the detection entry point, together with the
branch structure of the generation-time sampler.  External numeric
collaborators (the tokenizer, the uniform draws of a seeded torch generator,
float natural log, and the scipy Gamma quantile) are explicit parameters, as
the spec designates them collaborators; float values are modelled as
rationals.
-/

/-- The four seeding strategies of PFUtils.get_seed_rng (pf.py lines 52-64). -/
inductive Seeding where
  | hash
  | additive
  | skip
  | min
  deriving DecidableEq

/-- Configuration of the PF algorithm (PFConfig.initialize_parameters,
pf.py lines 11-18). -/
structure PFConfig where
  payload : ℕ
  salt_key : ℕ
  ngram : ℕ
  seed : ℕ
  seeding : Seeding
  max_seq_len : ℕ

/-- State of a torch.Generator: the seed it was last manual_seed-ed with and
the number of uniform draws made since.  A draw from a generator is a pure
function of this state. -/
abbrev RngState : Type := ℕ × ℕ

/-- torch.Generator.manual_seed: resets the state, discarding the previous
one entirely. -/
def manualSeed (s : ℕ) (_g : RngState) : RngState := (s, 0)

/-- External collaborators of pf.py (spec section 6): the hashtable held by
the instance, the uniform draws of a seeded torch generator (urand s i is the
i-th draw after manual_seed s), float natural log, and
scipy.stats.gamma.ppf applied as gammaPpf k alpha for shape k at
probability 1 - alpha, plus the tokenizer's vocab_size. -/
structure Externals where
  table : ℕ → ℕ
  urand : ℕ → ℕ → ℚ
  flog : ℚ → ℚ
  gammaPpf : ℕ → ℚ → ℚ
  vocab_size : ℕ

/-- torch.rand(n, generator=g): n uniform draws, advancing the state. -/
def torchRand (urand : ℕ → ℕ → ℚ) (n : ℕ) (g : RngState) : List ℚ × RngState :=
  ((List.range n).map (fun j => urand g.1 (g.2 + j)), (g.1, g.2 + n))

/-- PFUtils.hashint (pf.py lines 43-45): table[x mod 1000003]. -/
def hashint (E : Externals) (x : ℕ) : ℕ := E.table (x % 1000003)

/-- PFUtils.get_seed_rng (pf.py lines 48-65).  Python integers are arbitrary
precision, so the hash fold is exact arithmetic followed by mod 2^64 - 1.
The skip and min strategies read input_ids[0] / a minimum over the context;
on the empty context (undefined input per spec section 4.2) the embedding
totalizes with 0. -/
def get_seed_rng (cfg : PFConfig) (E : Externals) (input_ids : List ℕ) : ℕ :=
  match cfg.seeding with
  | Seeding.hash =>
      input_ids.foldl (fun seed t => (seed * cfg.salt_key + t) % (2 ^ 64 - 1)) cfg.seed
  | Seeding.additive => hashint E (cfg.salt_key * input_ids.sum)
  | Seeding.skip => hashint E (cfg.salt_key * input_ids.headD 0)
  | Seeding.min =>
      match input_ids.map (fun t => hashint E (cfg.salt_key * t)) with
      | [] => 0
      | h :: t => t.foldl Nat.min h

/-- PFUtils.score_tok (pf.py lines 103-112): reseed the generator from the
context hash, draw vocab_size uniforms, clamp exact zeros to 1e-4, and take
minus log rolled by -token_id (torch.roll with shift -k sends index j to the
value at index (j + k) mod n). -/
def score_tok (cfg : PFConfig) (E : Externals) (ngram_tokens : List ℕ)
    (token_id : ℕ) (g : RngState) : List ℚ × RngState :=
  let seed := get_seed_rng cfg E ngram_tokens
  let g1 := manualSeed seed g
  let rsg := torchRand E.urand E.vocab_size g1
  let rs := rsg.1.map (fun q => if q = 0 then 1 / 10000 else q)
  ((List.range E.vocab_size).map
      (fun j => -(E.flog (rs.getD ((j + token_id) % E.vocab_size) 0))), rsg.2)

/-- Inner loop body of PFUtils.get_scores_by_t (pf.py lines 152-166): the
state is (seen_ntuples, rts, generator state); cur_pos ranges over
range(ngram + 1, total_len).  The v1 / v2 guards skip the position (continue)
when the window resp. window-plus-token tuple was seen before. -/
def scoreStep (cfg : PFConfig) (E : Externals) (pmax : ℕ) (method : String)
    (toks : List ℕ) (st : List (List ℕ) × List (List ℚ) × RngState)
    (cur_pos : ℕ) : List (List ℕ) × List (List ℚ) × RngState :=
  let ngramTokens := (toks.drop (cur_pos - cfg.ngram)).take cfg.ngram
  if method = "v1" ∧ ngramTokens ∈ st.1 then st
  else if method = "v2" ∧ (ngramTokens ++ (toks.drop cur_pos).take 1) ∈ st.1 then st
  else
    let seen :=
      if method = "v1" then ngramTokens :: st.1
      else if method = "v2" then (ngramTokens ++ (toks.drop cur_pos).take 1) :: st.1
      else st.1
    let r := score_tok cfg E ngramTokens (toks.getD cur_pos 0) st.2.2
    (seen, st.2.1 ++ [r.1.take (pmax + 1)], r.2)

/-- Per-text loop of PFUtils.get_scores_by_t (pf.py lines 148-167). -/
def scoresForText (cfg : PFConfig) (E : Externals) (pmax : ℕ) (method : String)
    (toks : List ℕ) (g : RngState) : List (List ℚ) × RngState :=
  let total_len := toks.length
  let start_pos := cfg.ngram + 1
  let res := (List.range' start_pos (total_len - start_pos)).foldl
      (scoreStep cfg E pmax method toks) ([], [], g)
  (res.2.1, res.2.2)

/-- ntoks_max truncation (pf.py lines 144-145); None leaves the tokens
unchanged. -/
def truncTok (ntoks_max : Option ℕ) (t : List ℕ) : List ℕ :=
  match ntoks_max with
  | some m => t.take m
  | none => t

/-- Per-batch-element step of get_scores_by_t (pf.py lines 147, 167). -/
def textsStep (cfg : PFConfig) (E : Externals) (pmax : ℕ) (method : String)
    (acc : List (List (List ℚ)) × RngState) (toks : List ℕ) :
    List (List (List ℚ)) × RngState :=
  let r := scoresForText cfg E pmax method toks acc.2
  (acc.1 ++ [r.1], r.2)

/-- PFUtils.get_scores_by_t (pf.py lines 122-168), taken on already-encoded
token id lists (encode is the external tokenizer, spec section 6). -/
def get_scores_by_t (cfg : PFConfig) (E : Externals) (texts : List (List ℕ))
    (method : String) (ntoks_max : Option ℕ) (pmax : ℕ) (g : RngState) :
    List (List (List ℚ)) × RngState :=
  let tokens_id := texts.map (truncTok ntoks_max)
  tokens_id.foldl (textsStep cfg E pmax method) ([], g)

/-- A Python value that is either the int 0 (sum of an empty list) or a score
tensor (one entry per payload candidate). -/
inductive AggScore where
  | num (q : ℚ)
  | vec (v : List ℚ)
  deriving DecidableEq

/-- Python addition as it occurs in sum(scores): int plus tensor broadcasts,
tensor plus tensor adds elementwise. -/
def pyAdd : AggScore → List ℚ → AggScore
  | AggScore.num q, v => AggScore.vec (v.map (fun x => q + x))
  | AggScore.vec a, v => AggScore.vec (List.zipWith (fun x y => x + y) a v)

/-- Python sum(scores) with its implicit start value 0 (pf.py line 176). -/
def pySum (scores : List (List ℚ)) : AggScore :=
  scores.foldl pyAdd (AggScore.num 0)

/-- PFUtils.get_scores (pf.py lines 170-178). -/
def get_scores (score_lists : List (List (List ℚ))) : List AggScore :=
  score_lists.foldl
    (fun test_scores scores =>
      if scores.length = 0 then test_scores ++ [AggScore.num 0]
      else test_scores ++ [pySum scores]) []

/-- What get_scores appends for one text. -/
def aggOne (scores : List (List ℚ)) : AggScore :=
  if scores.length = 0 then AggScore.num 0 else pySum scores

/-- The detection threshold (pf.py lines 114-120): float('inf') for short
inputs, otherwise the (1 - alpha) Gamma quantile kept symbolically together
with its shape k = n_tokens - ngram (gamma.ppf itself is the external
collaborator gammaPpf). -/
inductive Threshold where
  | inf
  | gq (k : ℕ) (alpha : ℚ)
  deriving DecidableEq

/-- PFUtils.get_threshold (pf.py lines 114-120). -/
def get_threshold (cfg : PFConfig) (n_tokens : ℕ) (alpha : ℚ) : Threshold :=
  if n_tokens ≤ cfg.ngram then Threshold.inf
  else Threshold.gq (n_tokens - cfg.ngram) alpha

/-- The comparison score[0] > threshold (pf.py line 249): any float or tensor
compared with float('inf') by > is false; a one-element tensor is truthy by
its entry (detect_watermark passes payload_max = 0, so the score vectors are
singletons). -/
def pyGreater (E : Externals) : AggScore → Threshold → Bool
  | _, Threshold.inf => false
  | AggScore.num q, Threshold.gq k a => decide (E.gammaPpf k a < q)
  | AggScore.vec v, Threshold.gq k a => decide (E.gammaPpf k a < v.headD 0)

/-- PF.detect_watermark (pf.py lines 244-250).  Line 246 calls
get_scores_by_t without forwarding scoring_method, so scoring always runs the
default none policy; scores[0] and score[0] read only the first text.
Python raises IndexError on an empty text list; the embedding totalizes that
case with headD, which no claim touches. -/
def detect_watermark (cfg : PFConfig) (E : Externals) (texts : List (List ℕ))
    (alpha : ℚ) (scoring_method : String) (ntoks_max : Option ℕ)
    (g : RngState) : ℕ :=
  let scores := (get_scores_by_t cfg E texts "none" ntoks_max 0 g).1
  let score := get_scores scores
  let threshold := get_threshold cfg (scores.headD []).length alpha
  if pyGreater E (score.headD (AggScore.num 0)) threshold then 1 else 0

/-- First index attaining the maximum (torch.argmax along the last dim). -/
def argmaxQ (l : List ℚ) : ℕ :=
  (List.range l.length).foldl
    (fun best j => if l.getD best 0 < l.getD j 0 then j else best) 0

/-- PFUtils.sample_next (pf.py lines 68-101).  The temperature > 0 branch
(lines 77-97: softmax, nucleus masking, per-batch-element generator reseed
and uniform draw, argmax of log_probs - log rs, gather back) is
float/transcendental and is abstracted as the parameter wmBranch, closing
over the configuration (including payload); the temperature <= 0 branch
(line 99) is embedded concretely: argmax of the raw logits per batch element,
generator untouched. -/
def sample_next
    (wmBranch : List (List ℚ) → List (List ℕ) → ℚ → ℚ → RngState → List ℕ × RngState)
    (logits : List (List ℚ)) (ngram_tokens : List (List ℕ))
    (temperature top_p : ℚ) (g : RngState) : List ℕ × RngState :=
  if 0 < temperature then wmBranch logits ngram_tokens temperature top_p g
  else (logits.map argmaxQ, g)

/-- The permutation drawn by torch.randperm(1000003) at construction
(pf.py line 39).  The call passes no seed and no generator argument, so it
consumes torch's ambient global generator state; the embedding makes that
draw an explicit input. -/
structure AmbientTorch where
  randperm_1000003 : ℕ → ℕ

/-- PFUtils.__init__ (pf.py lines 37-41): the instance's hashtable is the
ambient randperm draw, and self.rng is manual_seed-ed with config.seed. -/
def PFUtils_init (cfg : PFConfig) (amb : AmbientTorch) : (ℕ → ℕ) × RngState :=
  (amb.randperm_1000003, (cfg.seed, 0))

/-- The spec section 8 example configuration: ngram 4, seed 42,
salt_key 15485863, hash seeding, payload 0. -/
def cfgEx4 : PFConfig :=
  { payload := 0, salt_key := 15485863, ngram := 4, seed := 42,
    seeding := Seeding.hash, max_seq_len := 1000 }

/-- A small configuration with ngram 1 for concrete end-to-end detection
runs. -/
def cfgEx1 : PFConfig :=
  { payload := 0, salt_key := 1, ngram := 1, seed := 0,
    seeding := Seeding.hash, max_seq_len := 100 }

/-- A concrete instantiation of the external collaborators: identity
hashtable, constant uniform draws 1/2, float log constantly -1 (so every
score entry equals 1) and gammaPpf k alpha = k, over a vocabulary of size 1. -/
def extEx : Externals :=
  { table := fun n => n, urand := fun _ _ => 1 / 2, flog := fun _ => -1,
    gammaPpf := fun k _ => (k : ℚ), vocab_size := 1 }

/-- One 4-token phrase repeated 10 times (40 tokens). -/
def phrase40 : List ℕ := List.flatten (List.replicate 10 [1, 2, 3, 4])

/-- A 12-token text: long enough that the concrete detection run flags it. -/
def taEx : List ℕ := [0, 1, 2, 3, 4, 5, 6, 7, 8, 9, 10, 11]

/-- A 3-token text: short enough that the concrete detection run rejects it. -/
def tbEx : List ℕ := [0, 1, 2]

/-- Ambient randperm outcome: the identity permutation of range(1000003). -/
def drawA : AmbientTorch := ⟨fun n => n⟩

/-- Ambient randperm outcome: the transposition of 0 and 1, a permutation of
range(1000003) differing from drawA. -/
def drawB : AmbientTorch := ⟨fun n => if n = 0 then 1 else if n = 1 then 0 else n⟩

/-! Helper lemmas. -/

/-- score_tok reseeds the generator before drawing (manual_seed discards the
previous state), so its result does not depend on the incoming state. -/
lemma score_tok_state (cfg : PFConfig) (E : Externals) (nt : List ℕ) (tok : ℕ)
    (g g' : RngState) : score_tok cfg E nt tok g = score_tok cfg E nt tok g' := rfl

/-- One scoring step started from two states that agree on seen tuples and on
the accumulated score vectors agrees on those two components. -/
lemma scoreStep_pair (cfg : PFConfig) (E : Externals) (pmax : ℕ) (method : String)
    (toks : List ℕ) (p : ℕ) (s : List (List ℕ)) (r : List (List ℚ)) (g g' : RngState) :
    (scoreStep cfg E pmax method toks (s, r, g) p).1 =
      (scoreStep cfg E pmax method toks (s, r, g') p).1 ∧
    (scoreStep cfg E pmax method toks (s, r, g) p).2.1 =
      (scoreStep cfg E pmax method toks (s, r, g') p).2.1 := by
  unfold scoreStep
  dsimp only
  split_ifs <;> exact ⟨rfl, rfl⟩

/-- The accumulated score vectors of the position loop do not depend on the
initial generator state. -/
lemma foldl_scoreStep_pair (cfg : PFConfig) (E : Externals) (pmax : ℕ)
    (method : String) (toks : List ℕ) :
    ∀ (ps : List ℕ) (s : List (List ℕ)) (r : List (List ℚ)) (g g' : RngState),
    (ps.foldl (scoreStep cfg E pmax method toks) (s, r, g)).2.1 =
      (ps.foldl (scoreStep cfg E pmax method toks) (s, r, g')).2.1
  | [], _, _, _, _ => rfl
  | p :: ps, s, r, g, g' => by
    obtain ⟨h1, h2⟩ := scoreStep_pair cfg E pmax method toks p s r g g'
    simp only [List.foldl_cons]
    have ea : scoreStep cfg E pmax method toks (s, r, g) p =
        ((scoreStep cfg E pmax method toks (s, r, g') p).1,
         (scoreStep cfg E pmax method toks (s, r, g') p).2.1,
         (scoreStep cfg E pmax method toks (s, r, g) p).2.2) := by
      rw [← h1, ← h2]
    rw [ea]
    exact foldl_scoreStep_pair cfg E pmax method toks ps _ _ _ _

/-- The score vectors computed for one text do not depend on the incoming
generator state. -/
lemma scoresForText_rng (cfg : PFConfig) (E : Externals) (pmax : ℕ)
    (method : String) (toks : List ℕ) (g g' : RngState) :
    (scoresForText cfg E pmax method toks g).1 =
      (scoresForText cfg E pmax method toks g').1 := by
  unfold scoresForText
  dsimp only
  exact foldl_scoreStep_pair cfg E pmax method toks _ [] [] g g'

/-- The per-batch fold of get_scores_by_t only ever appends to the score
list. -/
lemma textsFold_prefix (cfg : PFConfig) (E : Externals) (pmax : ℕ) (method : String) :
    ∀ (ts : List (List ℕ)) (acc : List (List (List ℚ)) × RngState),
    ∃ l, (ts.foldl (textsStep cfg E pmax method) acc).1 = acc.1 ++ l
  | [], acc => ⟨[], by simp⟩
  | t :: ts, acc => by
    obtain ⟨l, hl⟩ := textsFold_prefix cfg E pmax method ts
      (textsStep cfg E pmax method acc t)
    refine ⟨(scoresForText cfg E pmax method t acc.2).1 :: l, ?_⟩
    simp only [List.foldl_cons]
    rw [hl]
    simp [textsStep]

/-- The score list of get_scores_by_t on a non-empty batch starts with the
first text's scores. -/
lemma get_scores_by_t_cons (cfg : PFConfig) (E : Externals) (method : String)
    (ntoks_max : Option ℕ) (pmax : ℕ) (t : List ℕ) (ts : List (List ℕ))
    (g : RngState) :
    ∃ l, (get_scores_by_t cfg E (t :: ts) method ntoks_max pmax g).1 =
      (scoresForText cfg E pmax method (truncTok ntoks_max t) g).1 :: l := by
  unfold get_scores_by_t
  simp only [List.map_cons, List.foldl_cons]
  obtain ⟨l, hl⟩ := textsFold_prefix cfg E pmax method (ts.map (truncTok ntoks_max))
    (textsStep cfg E pmax method ([], g) (truncTok ntoks_max t))
  refine ⟨l, ?_⟩
  rw [hl]
  simp [textsStep]

/-- The first entry of get_scores_by_t is the score list of the first text. -/
lemma get_scores_by_t_head (cfg : PFConfig) (E : Externals) (method : String)
    (ntoks_max : Option ℕ) (pmax : ℕ) (t : List ℕ) (ts : List (List ℕ))
    (g : RngState) :
    (get_scores_by_t cfg E (t :: ts) method ntoks_max pmax g).1.headD [] =
      (scoresForText cfg E pmax method (truncTok ntoks_max t) g).1 := by
  obtain ⟨l, hl⟩ := get_scores_by_t_cons cfg E method ntoks_max pmax t ts g
  rw [hl]
  rfl

/-- Generic fold-append-to-map lemma. -/
lemma foldl_append_map (f : List (List ℚ) → AggScore) :
    ∀ (ls : List (List (List ℚ))) (acc : List AggScore),
    ls.foldl (fun a s => a ++ [f s]) acc = acc ++ ls.map f
  | [], acc => by simp
  | s :: ls, acc => by
    simp only [List.foldl_cons, List.map_cons]
    rw [foldl_append_map f ls (acc ++ [f s])]
    simp

/-- get_scores maps aggOne over the per-text score lists. -/
lemma get_scores_eq_map (ls : List (List (List ℚ))) :
    get_scores ls = ls.map aggOne := by
  have hstep : (fun (test_scores : List AggScore) (scores : List (List ℚ)) =>
      if scores.length = 0 then test_scores ++ [AggScore.num 0]
      else test_scores ++ [pySum scores]) =
      fun test_scores scores => test_scores ++ [aggOne scores] := by
    funext a s
    unfold aggOne
    split_ifs <;> rfl
  unfold get_scores
  rw [hstep, foldl_append_map aggOne ls []]
  simp

/-- detect_watermark depends only on the first text: it equals the decision
computed from the first text's score list alone. -/
lemma detect_watermark_first (cfg : PFConfig) (E : Externals) (t0 : List ℕ)
    (rest : List (List ℕ)) (alpha : ℚ) (m : String) (ntoks_max : Option ℕ)
    (g : RngState) :
    detect_watermark cfg E (t0 :: rest) alpha m ntoks_max g =
      (if pyGreater E
          (aggOne (scoresForText cfg E 0 "none" (truncTok ntoks_max t0) (0, 0)).1)
          (get_threshold cfg
            (scoresForText cfg E 0 "none" (truncTok ntoks_max t0) (0, 0)).1.length alpha)
        then 1 else 0) := by
  obtain ⟨l, hl⟩ := get_scores_by_t_cons cfg E "none" ntoks_max 0 t0 rest g
  unfold detect_watermark
  simp only [hl, get_scores_eq_map, List.map_cons, List.headD_cons]
  rw [scoresForText_rng cfg E 0 "none" (truncTok ntoks_max t0) g (0, 0)]

/-- For a text no longer than ngram the position loop is empty. -/
lemma scoresForText_short (cfg : PFConfig) (E : Externals) (pmax : ℕ)
    (method : String) (toks : List ℕ) (g : RngState)
    (h : toks.length ≤ cfg.ngram) :
    (scoresForText cfg E pmax method toks g).1 = [] := by
  unfold scoresForText
  dsimp only
  have h0 : toks.length - (cfg.ngram + 1) = 0 :=
    Nat.sub_eq_zero_of_le (le_trans h (Nat.le_succ _))
  rw [h0]
  rfl

/-- A fold of mod-M steps over a non-empty list lands below M. -/
lemma foldl_mod_lt (K M : ℕ) (hM : 0 < M) :
    ∀ (l : List ℕ) (s : ℕ), l ≠ [] →
      l.foldl (fun seed t => (seed * K + t) % M) s < M
  | [], _, h => absurd rfl h
  | [a], s, _ => by
    simp only [List.foldl_cons, List.foldl_nil]
    exact Nat.mod_lt _ hM
  | a :: b :: l, s, _ => by
    simp only [List.foldl_cons]
    exact foldl_mod_lt K M hM (b :: l) ((s * K + a) % M) (by simp)

/-- Folding pyAdd from a tensor value is the elementwise sum. -/
lemma foldl_pyAdd_vec : ∀ (vs : List (List ℚ)) (a : List ℚ),
    vs.foldl pyAdd (AggScore.vec a) =
      AggScore.vec (vs.foldl (fun x y => List.zipWith (fun p q => p + q) x y) a)
  | [], _ => rfl
  | v :: vs, a => by
    simp only [List.foldl_cons]
    have h : pyAdd (AggScore.vec a) v =
        AggScore.vec (List.zipWith (fun p q => p + q) a v) := rfl
    rw [h]
    exact foldl_pyAdd_vec vs _

/-! Claim theorems. -/

/-- C1 (amended): detect_watermark returns a single decision computed from
the first text's scores only; the remaining texts in the list and the
generator state do not influence the result, so there is no per-text output.
The decision for the first text is the comparison of its aggregated score
against the threshold derived from its scored-position count. -/
theorem pf_C1_thm (cfg : PFConfig) (E : Externals) (t0 : List ℕ)
    (rest rest' : List (List ℕ)) (alpha : ℚ) (m : String) (nt : Option ℕ)
    (g g' : RngState) :
    detect_watermark cfg E (t0 :: rest) alpha m nt g =
      detect_watermark cfg E (t0 :: rest') alpha m nt g' := by
  rw [detect_watermark_first cfg E t0 rest alpha m nt g,
    detect_watermark_first cfg E t0 rest' alpha m nt g']

set_option maxRecDepth 4000 in
/-- C1 counterexample: on a two-text input, detect_watermark returns the
single decision of the first text; replacing the second text by one whose
standalone decision differs (tbEx decides 0, taEx decides 1) does not change
the output, so the output does not contain a decision computed from the
second text's scores, and its length is not the length of the input list. -/
theorem pf_C1_counterexample :
    detect_watermark cfgEx1 extEx [taEx, tbEx] (1 / 100) "none" none (0, 0) = 1 ∧
    detect_watermark cfgEx1 extEx [taEx, taEx] (1 / 100) "none" none (0, 0) = 1 ∧
    detect_watermark cfgEx1 extEx [tbEx] (1 / 100) "none" none (0, 0) = 0 ∧
    detect_watermark cfgEx1 extEx [taEx, tbEx] (1 / 100) "none" none (0, 0) =
      detect_watermark cfgEx1 extEx [taEx, taEx] (1 / 100) "none" none (0, 0) := by
  refine ⟨?_, ?_, ?_, ?_⟩ <;> with_unfolding_all decide

/-- C2: evaluation of the code at the failing input.  With ngram = 4 and one
text of 10 tokens, detect_watermark computes its threshold from
len(scores[0]) = 5 (the number of scored positions), so the Gamma shape used
is 5 - 4 = 1, whereas the claim requires shape n_tokens - ngram = 6. -/
theorem pf_C2_eval :
    get_threshold cfgEx4
        ((get_scores_by_t cfgEx4 extEx [[0, 1, 2, 3, 4, 5, 6, 7, 8, 9]]
            "none" none 0 (0, 0)).1.headD []).length (1 / 100) =
      Threshold.gq 1 (1 / 100) ∧
    ([0, 1, 2, 3, 4, 5, 6, 7, 8, 9] : List ℕ).length - cfgEx4.ngram = 6 ∧
    (1 : ℕ) ≠ 6 := by
  refine ⟨?_, ?_, ?_⟩ <;> with_unfolding_all decide

set_option maxRecDepth 4000 in
/-- C3 counterexample: for the 4-token phrase 1 2 3 4 repeated 10 times with
ngram = 4, scoring_method v1 does not produce exactly one scored position. -/
theorem pf_C3_counterexample :
    ((get_scores_by_t cfgEx4 extEx [phrase40] "v1" none 0 (0, 0)).1.headD
      []).length ≠ 1 := by
  with_unfolding_all decide

set_option maxRecDepth 4000 in
/-- C3 (amended): for the 4-token phrase 1 2 3 4 repeated 10 times with
ngram = 4, v1 produces exactly 4 scored positions - one for each distinct
sliding context window, i.e. each of the four rotations of the phrase, with
every later repeat of a window skipped - while none produces one scored
position per valid window, i.e. 35 = 40 - ngram - 1. -/
theorem pf_C3_amended :
    ((get_scores_by_t cfgEx4 extEx [phrase40] "v1" none 0 (0, 0)).1.headD
      []).length = 4 ∧
    ((get_scores_by_t cfgEx4 extEx [phrase40] "none" none 0 (0, 0)).1.headD
      []).length = 35 ∧
    35 = phrase40.length - cfgEx4.ngram - 1 := by
  refine ⟨?_, ?_, ?_⟩ <;> with_unfolding_all decide

/-- C4 (amended): the permutation table is the draw that torch.randperm took
from the ambient global generator at construction; it does not depend on the
configuration at all, and two constructions yield the identical table (hence
identical hash outputs) exactly when the ambient draws coincide - there is no
fixed internal seed making this hold unconditionally. -/
theorem pf_C4_amended (cfg cfg' : PFConfig) (amb : AmbientTorch) (x : ℕ) :
    (PFUtils_init cfg amb).1 = (PFUtils_init cfg' amb).1 ∧
    (PFUtils_init cfg amb).1 x = amb.randperm_1000003 x := ⟨rfl, rfl⟩

/-- C4 counterexample: with the same configuration, two constructions whose
ambient randperm draws are two different permutations of range(1000003)
(the identity, and the transposition of 0 and 1) produce different tables,
so construction is not determined by the configuration plus a fixed internal
seed. -/
theorem pf_C4_counterexample :
    Function.Bijective drawA.randperm_1000003 ∧
    Function.Bijective drawB.randperm_1000003 ∧
    (PFUtils_init cfgEx4 drawA).1 0 ≠ (PFUtils_init cfgEx4 drawB).1 0 := by
  refine ⟨Function.bijective_id, ?_, by decide⟩
  have hinv : Function.Involutive drawB.randperm_1000003 := by
    intro n
    by_cases h0 : n = 0
    · simp [drawB, h0]
    · by_cases h1 : n = 1
      · simp [drawB, h0, h1]
      · simp [drawB, h0, h1]
  exact hinv.bijective

/-- C5: for a fixed configuration, hashing the same context twice yields the
same seed, and score_tok applied to the same context and observed token from
any two generator states (in particular on two successive calls) returns the
identical score vector: manual_seed discards the generator's prior state, so
the draw is a function of the context hash alone. -/
theorem pf_C5 (cfg : PFConfig) (E : Externals) (ctx : List ℕ) (tok : ℕ)
    (g g' : RngState) :
    get_seed_rng cfg E ctx = get_seed_rng cfg E ctx ∧
    score_tok cfg E ctx tok g = score_tok cfg E ctx tok g' := ⟨rfl, rfl⟩

/-- C6: for a first text of at most ngram tokens, detect_watermark returns 0
(not watermarked) whatever the text's content, the other arguments and the
generator state, and the threshold it compares against is float('inf'). -/
theorem pf_C6 (cfg : PFConfig) (E : Externals) (toks : List ℕ)
    (rest : List (List ℕ)) (alpha : ℚ) (m : String) (nt : Option ℕ)
    (g : RngState) (h : toks.length ≤ cfg.ngram) :
    detect_watermark cfg E (toks :: rest) alpha m nt g = 0 ∧
    get_threshold cfg
        ((get_scores_by_t cfg E (toks :: rest) "none" nt 0 g).1.headD []).length
        alpha = Threshold.inf := by
  have htr : (truncTok nt toks).length ≤ cfg.ngram := by
    cases nt with
    | none => exact h
    | some mlen =>
        calc (toks.take mlen).length ≤ toks.length := by
              rw [List.length_take]
              exact min_le_right _ _
          _ ≤ cfg.ngram := h
  have hempty0 := scoresForText_short cfg E 0 "none" (truncTok nt toks) (0, 0) htr
  have hemptyg := scoresForText_short cfg E 0 "none" (truncTok nt toks) g htr
  constructor
  · rw [detect_watermark_first cfg E toks rest alpha m nt g, hempty0]
    simp [aggOne, get_threshold, pyGreater]
  · rw [get_scores_by_t_head cfg E "none" nt 0 toks rest g, hemptyg]
    simp [get_threshold]

/-- C6 witness: a concrete 2-token text with ngram 4 is rejected. -/
theorem pf_C6_witness :
    ([7, 8] : List ℕ).length ≤ cfgEx4.ngram ∧
    detect_watermark cfgEx4 extEx [[7, 8]] (1 / 100) "none" none (0, 0) = 0 := by
  refine ⟨by decide, ?_⟩
  exact (pf_C6 cfgEx4 extEx [7, 8] [] (1 / 100) "none" none (0, 0) (by decide)).1

/-- C7: under hash seeding, get_seed_rng is exactly the left-to-right fold
seed := (seed * salt_key + t) mod (2^64 - 1) started from the base seed, in
exact (arbitrary precision) integer arithmetic; consequently the result of a
non-empty fold lies below 2^64 - 1, and the result is order-sensitive, as the
concrete spec-example configuration shows on the contexts 1 2 and 2 1. -/
theorem pf_C7 (cfg : PFConfig) (E : Externals) (toks : List ℕ)
    (h : cfg.seeding = Seeding.hash) :
    get_seed_rng cfg E toks =
      toks.foldl (fun seed t => (seed * cfg.salt_key + t) % (2 ^ 64 - 1)) cfg.seed ∧
    (toks ≠ [] → get_seed_rng cfg E toks < 2 ^ 64 - 1) ∧
    get_seed_rng cfgEx4 extEx [1, 2] ≠ get_seed_rng cfgEx4 extEx [2, 1] := by
  have hfold : get_seed_rng cfg E toks =
      toks.foldl (fun seed t => (seed * cfg.salt_key + t) % (2 ^ 64 - 1)) cfg.seed := by
    unfold get_seed_rng
    rw [h]
  refine ⟨hfold, ?_, by with_unfolding_all decide⟩
  intro hne
  rw [hfold]
  exact foldl_mod_lt cfg.salt_key (2 ^ 64 - 1) (by norm_num) toks cfg.seed hne

/-- C7 witness: the hash-seeding fold evaluated on the spec-example
configuration and the context 3 5. -/
theorem pf_C7_witness :
    cfgEx4.seeding = Seeding.hash ∧
    (get_seed_rng cfgEx4 extEx [3, 5] =
      [3, 5].foldl (fun seed t => (seed * cfgEx4.salt_key + t) % (2 ^ 64 - 1))
        cfgEx4.seed ∧
    (([3, 5] : List ℕ) ≠ [] → get_seed_rng cfgEx4 extEx [3, 5] < 2 ^ 64 - 1) ∧
    get_seed_rng cfgEx4 extEx [1, 2] ≠ get_seed_rng cfgEx4 extEx [2, 1]) :=
  ⟨rfl, pf_C7 cfgEx4 extEx [3, 5] rfl⟩

/-- C8: get_scores maps each text's score list to the elementwise sum of its
score vectors (a tensor), and a text with zero scored positions yields the
Python int 0; the empty case is handled by policy, not by an error. -/
theorem pf_C8 (score_lists : List (List (List ℚ))) :
    get_scores score_lists = score_lists.map (fun scores =>
      match scores with
      | [] => AggScore.num 0
      | v :: vs =>
          AggScore.vec (vs.foldl (fun x y => List.zipWith (fun p q => p + q) x y) v)) := by
  rw [get_scores_eq_map]
  have hfun : aggOne = fun (scores : List (List ℚ)) =>
      match scores with
      | [] => AggScore.num 0
      | v :: vs =>
          AggScore.vec (vs.foldl (fun x y => List.zipWith (fun p q => p + q) x y) v) := by
    funext s
    cases s with
    | nil => rfl
    | cons v vs =>
        show aggOne (v :: vs) = AggScore.vec _
        unfold aggOne pySum
        rw [if_neg (by simp)]
        simp only [List.foldl_cons]
        have h0 : pyAdd (AggScore.num 0) v = AggScore.vec v := by
          unfold pyAdd
          simp
        rw [h0, foldl_pyAdd_vec]
  rw [hfun]

/-- C9: with temperature 0, sample_next returns argmax(logits) for every
batch element and leaves the generator untouched (no pseudorandom vector is
drawn); the result does not depend on the context windows, on top_p, or on
the watermark branch (and hence not on the configuration or payload, which
enter only through that branch). -/
theorem pf_C9
    (wb wb' : List (List ℚ) → List (List ℕ) → ℚ → ℚ → RngState → List ℕ × RngState)
    (logits : List (List ℚ)) (ctx ctx' : List (List ℕ)) (tp tp' : ℚ)
    (g : RngState) :
    sample_next wb logits ctx 0 tp g = (logits.map argmaxQ, g) ∧
    sample_next wb logits ctx 0 tp g = sample_next wb' logits ctx' 0 tp' g := by
  have h : sample_next wb logits ctx 0 tp g = (logits.map argmaxQ, g) := by
    unfold sample_next
    rw [if_neg (lt_irrefl (0 : ℚ))]
  have h' : sample_next wb' logits ctx' 0 tp' g = (logits.map argmaxQ, g) := by
    unfold sample_next
    rw [if_neg (lt_irrefl (0 : ℚ))]
  exact ⟨h, h.trans h'.symm⟩

/-- C10: PF.detect_watermark never forwards its scoring_method argument to
get_scores_by_t (which therefore always scores with its default none
policy), so the decision is identical for every pair of values of
scoring_method. -/
theorem pf_C10 (cfg : PFConfig) (E : Externals) (texts : List (List ℕ))
    (alpha : ℚ) (nt : Option ℕ) (g : RngState) (m m' : String) :
    detect_watermark cfg E texts alpha m nt g =
      detect_watermark cfg E texts alpha m' nt g := rfl
